import Mathlib

/-!
# Shallow embedding of the nhl-235 result-transformation pipeline

This file embeds the game-result transformation pipeline of the `nhl-235`
command-line tool (`src/main.rs`, `src/api_types.rs`) and proves properties
of it.  Conventions of the embedding:

* Rust `u64` values are modelled as `Nat`.  Within the feed contract
  (periods are small positive integers, `min` is between 0 and 19, stat
  counters are bounded by the number of goals of one game) every `u64`
  computation of the embedded code stays far below `2^64`, so `Nat`
  arithmetic coincides with `u64` arithmetic on the modelled domain.
  `period - 1` in `format_minute` is `Nat` subtraction; it differs from the
  checked `u64` subtraction only at `period = 0`, which the feed contract
  ("number > 0 in number form") excludes and which no theorem below touches.
* A Rust panic (`unwrap` on `None`, `parse().unwrap()` on a non-numeric
  string, `HashMap` indexing with an absent key) is modelled as
  `Except.error` carrying the panic message; `Except.ok` is normal return.
* `HashMap<String, V>` fields that the transformer only looks up by key are
  modelled as association lists; `serde_json::Value` score payloads are
  specialised to `Nat` (the in-contract numeric case), since the transformer
  never inspects them beyond formatting.
* Feed-model fields that the transformer never reads (team metadata other
  than the abbreviation, the status progress block, pre-game stats, the
  `sec`/`strength`/`emptyNet` goal attributes) are carried where they are
  cheap and documented where they are dropped; none of them influences any
  embedded function.
-/

namespace NHL235

/-- `api_types.rs`: `Scorer { player, seasonTotal }`. -/
structure Scorer where
  player : String
  season_total : Option Nat
deriving DecidableEq

/-- `api_types.rs`: `Assist { player, seasonTotal }`. -/
structure Assist where
  player : String
  season_total : Nat
deriving DecidableEq

/-- `api_types.rs`: `GoalResponse`. -/
structure GoalResponse where
  period : String
  scorer : Scorer
  team : String
  assists : Option (List Assist)
  empty_net : Option Bool
  min : Option Nat
  sec : Option Nat
  strength : Option String
deriving DecidableEq

/-- `api_types.rs`: `TeamResponse`.  Only `abbreviation` is ever read by the
transformer; the remaining metadata fields are carried verbatim. -/
structure TeamResponse where
  abbreviation : String
  id : Nat
  location_name : String
  short_name : String
  team_name : String
deriving DecidableEq

/-- `api_types.rs`: `TeamsResponse { away, home }`. -/
structure TeamsResponse where
  away : TeamResponse
  home : TeamResponse
deriving DecidableEq

/-- `api_types.rs`: `StatusResponse`.  The optional progress block is never
read by the transformer and is not modelled. -/
structure StatusResponse where
  state : String
deriving DecidableEq

/-- `api_types.rs`: `CurrentStatsResponse`.  Only `playoffSeries` is consumed
by the transformer (carried through opaquely); the records/streaks/standings
maps are never read and are not modelled.  The `playoffSeries` payload is an
opaque JSON map in the source; it is specialised to a `wins` association
list, the only shape the renderer ever reads out of it. -/
structure CurrentStatsResponse where
  playoff_series : Option (List (String × Nat))
deriving DecidableEq

/-- `api_types.rs`: `GameResponse`.  `scores` is a `HashMap<String, Value>` in
the source, modelled as an association list with numeric payloads. -/
structure GameResponse where
  status : StatusResponse
  start_time : String
  goals : Option (List GoalResponse)
  scores : List (String × Nat)
  teams : TeamsResponse
  current_stats : CurrentStatsResponse
deriving DecidableEq

/-- `main.rs`: `struct Player { first_name, last_name, team }`. -/
structure Player where
  first_name : String
  last_name : String
  team : String
deriving DecidableEq

/-- `main.rs`: `struct Goal { scorer, assists, minute, special, team }`. -/
structure Goal where
  scorer : Player
  assists : List Player
  minute : Nat
  special : Bool
  team : String
deriving DecidableEq

/-- `main.rs`: `struct Stat { goals, assists }`. -/
structure Stat where
  goals : Nat
  assists : Nat
deriving DecidableEq

/-- `main.rs`: `struct Game` (the renderer-facing domain record). -/
structure Game where
  home : String
  away : String
  score : String
  goals : List Goal
  status : String
  special : String
  playoff_series : Option (List (String × Nat))
deriving DecidableEq

/-- `main.rs`: `const SHOOTOUT_MINUTE: u64 = 65`. -/
def SHOOTOUT_MINUTE : Nat := 65

/-! ## Rust library functions used by the pipeline -/

/-- Accumulator loop of Rust's `str::parse::<u64>`: consume decimal digits,
failing on the first non-digit character. -/
def digits_to_nat : List Char → Nat → Option Nat
  | [], acc => some acc
  | c :: cs, acc =>
      if c.isDigit then digits_to_nat cs (acc * 10 + (c.toNat - '0'.toNat))
      else none

/-- Rust's `str::parse::<u64>`: an optional leading `+`, then one or more
decimal digits, and the value must fit in a `u64` (checking the final value
against `2^64` is equivalent to Rust's per-step overflow check, because the
accumulated value only grows). -/
def parseU64 (s : String) : Option Nat :=
  let cs := match s.data with
    | '+' :: rest => rest
    | cs => cs
  match cs with
  | [] => none
  | _ =>
      match digits_to_nat cs 0 with
      | some n => if n < 2 ^ 64 then some n else none
      | none => none

/-- Rust's `str::split(" ")` on the underlying character list: fields are
separated by every single space, empty fields are kept, and the result is
never empty (`""` splits to `[""]`). -/
def split_spaces : List Char → List (List Char)
  | [] => [[]]
  | c :: cs =>
      if c = ' ' then [] :: split_spaces cs
      else
        match split_spaces cs with
        | [] => [[c]]
        | p :: ps => (c :: p) :: ps

/-- Rust's `[&str]::join(" ")` on character lists. -/
def join_spaces : List (List Char) → List Char
  | [] => []
  | [l] => l
  | l :: ls => l ++ ' ' :: join_spaces ls

/-- Rust's `str::split_inclusive('\n')` on the underlying character list:
chunks each end with `'\n'` except possibly the last, and the empty string
yields no chunks. -/
def split_inclusive_nl : List Char → List (List Char)
  | [] => []
  | c :: cs =>
      if c = '\n' then [c] :: split_inclusive_nl cs
      else
        match split_inclusive_nl cs with
        | [] => [[c]]
        | p :: ps => (c :: p) :: ps

/-- Strip one trailing `'\r'`, if present (second half of the per-chunk map
of Rust's `str::lines`). -/
def strip_cr (l : List Char) : List Char :=
  match l.getLast? with
  | none => l
  | some c => if c = '\r' then l.dropLast else l

/-- The per-chunk map of Rust's `str::lines`: strip one trailing `'\n'`, and
when one was stripped also strip one trailing `'\r'`.  A chunk that does not
end in `'\n'` (only the final chunk can) is returned unchanged, trailing
`'\r'` included. -/
def strip_newline (l : List Char) : List Char :=
  match l.getLast? with
  | none => l
  | some c => if c = '\n' then strip_cr l.dropLast else l

/-- Rust's `str::lines` on the underlying character list. -/
def rust_lines (s : List Char) : List (List Char) :=
  (split_inclusive_nl s).map strip_newline

/-- Joining character-list lines with a separator (the inverse direction of
line splitting, used to state round-trip properties of `rust_lines`). -/
def join_with (sep : List Char) : List (List Char) → List Char
  | [] => []
  | [l] => l
  | l :: ls => l ++ sep ++ join_with sep ls

/-- Rust's `team.replace("\"", "")`: with a one-character pattern and an
empty replacement, `str::replace` deletes every occurrence, i.e. filters the
quote character out. -/
def remove_quotes (s : String) : String :=
  String.mk (s.data.filter (fun c => c ≠ '"'))

/-! ## The transformer (`main.rs`) -/

/-- `main.rs` 237–244, `format_minute`: OT maps to `60 + min`; otherwise the
period string is parsed as a `u64` (`parse().unwrap()`, a panic — hence
`Except.error` — on a non-numeric period) and the minute is
`20 * (period - 1) + min`. -/
def format_minute (min : Nat) (period : String) : Except String Nat :=
  if period = "OT" then .ok (60 + min)
  else
    match parseU64 period with
    | none => .error "invalid digit found in string"
    | some p => .ok (20 * (p - 1) + min)

/-- `main.rs` 248–253, `is_special`: true iff the period parses as an integer
`>= 4`, or fails to parse at all. -/
def is_special (goal : GoalResponse) : Bool :=
  match parseU64 goal.period with
  | some period => 4 ≤ period
  | none => true

/-- `main.rs` 330–339, `extract_player`: split the full name on `" "`, take
the first field as the first name and the space-joined remainder as the last
name. -/
def extract_player (name : String) (team : String) : Player :=
  let parts := split_spaces name.data
  let first_name := parts.headD []
  let last_name := join_spaces (parts.drop 1)
  { first_name := String.mk first_name
    last_name := String.mk last_name
    team := team }

/-- `main.rs` 270–285: the game-level special marker, an exact string match
on the last goal's period (`""` when the goal list is empty). -/
def game_special_marker (all_goals : List GoalResponse) : String :=
  match all_goals.getLast? with
  | none => ""
  | some last_goal =>
      let period := last_goal.period
      if period = "1" then ""
      else if period = "2" then ""
      else if period = "3" then ""
      else if period = "OT" then "ot"
      else if period = "SO" then "so"
      else "ot"

/-- `main.rs` 292–295: a goal's derived minute.  `"SO"` maps to the shootout
sentinel; otherwise `goal.min.unwrap()` (a panic — `Except.error` — when
`min` is absent) feeds `format_minute`. -/
def goal_minute (goal : GoalResponse) : Except String Nat :=
  if goal.period = "SO" then .ok SHOOTOUT_MINUTE
  else
    match goal.min with
    | none => .error "called Option::unwrap() on a None value"
    | some m => format_minute m goal.period

/-- `main.rs` 289–313: the per-goal body of the `goals` map inside
`parse_game`. -/
def parse_goal (goal : GoalResponse) : Except String Goal :=
  match goal_minute goal with
  | .error e => .error e
  | .ok minute =>
      let scorer := extract_player goal.scorer.player goal.team
      let assists :=
        (goal.assists.getD []).map (fun assist => extract_player assist.player goal.team)
      .ok { scorer := scorer
            assists := assists
            minute := minute
            team := remove_quotes goal.team
            special := is_special goal }

/-- Rust's eager `Iterator::map`/`collect` over a closure that can panic:
elements are transformed left to right and the first panic aborts the whole
collection. -/
def map_except (f : α → Except ε β) : List α → Except ε (List β)
  | [] => .ok []
  | x :: xs =>
      match f x with
      | .error e => .error e
      | .ok y =>
          match map_except f xs with
          | .error e => .error e
          | .ok ys => .ok (y :: ys)

/-- Rust's `HashMap` `Index` impl (`&map[key]`): panics — `Except.error` —
when the key is absent. -/
def hashmap_index (m : List (String × Nat)) (key : String) : Except String Nat :=
  match m.lookup key with
  | some v => .ok v
  | none => .error "no entry found for key"

/-- `main.rs` 256–328, `parse_game`: resolve the two sides' scores by indexing
the `scores` map (a panic point), default the goal list to empty, compute the
game-level special marker from the last goal, transform every goal (panic
points inside), and build the `Game`.  The Rust function returns
`Option<Game>` and its only return is `Some(game)`; the `Except` layer on top
records the panic possibilities. -/
def parse_game (game_json : GameResponse) : Except String (Option Game) :=
  let home_team := game_json.teams.home.abbreviation
  let away_team := game_json.teams.away.abbreviation
  match hashmap_index game_json.scores home_team with
  | .error e => .error e
  | .ok home_score =>
      match hashmap_index game_json.scores away_team with
      | .error e => .error e
      | .ok away_score =>
          let all_goals := game_json.goals.getD []
          let special := game_special_marker all_goals
          match map_except parse_goal all_goals with
          | .error e => .error e
          | .ok goals =>
              .ok (some
                { home := home_team
                  away := away_team
                  score := toString home_score ++ "-" ++ toString away_score
                  goals := goals
                  status := game_json.status.state
                  special := special
                  playoff_series := game_json.current_stats.playoff_series })

/-- `main.rs` 212–219, `parse_games`: transform every game of the feed; a
panic in any single game aborts the whole batch. -/
def parse_games (games : List GameResponse) : Except String (List (Option Game)) :=
  map_except parse_game games

/-- `main.rs` 132–140, `parse_highlight_config`: `config.lines()` filtered to
the non-empty lines, in file order.  The Rust function returns
`Result<Vec<String>, _>` but its only return is `Ok`, so the model drops the
always-`Ok` wrapper. -/
def parse_highlight_config (config : String) : List String :=
  ((rust_lines config.data).map (fun l => String.mk l)).filter (fun s => s ≠ "")

/-! ## The stats aggregator (`main.rs` 504–581)

The accumulating `HashMap<&Player, Stat>` is modelled as an association list
in insertion order.  `HashMap` iteration order is arbitrary in Rust, so any
statement about the rendered stats message that depends on entry order fixes
the insertion order as one admissible enumeration; the properties proved
below (single-entry messages, membership of sub-messages) do not depend on
which enumeration order the map yields. -/

/-- `stats.entry(p).and_modify(|s| s.goals += 1).or_insert(Stat«1,0»)` on the
association-list model: bump the existing entry or append a fresh one. -/
def add_goal_stat (stats : List (Player × Stat)) (p : Player) : List (Player × Stat) :=
  if stats.any (fun e => e.1 = p) then
    stats.map (fun e => if e.1 = p then (e.1, ⟨e.2.goals + 1, e.2.assists⟩) else e)
  else stats ++ [(p, ⟨1, 0⟩)]

/-- `stats.entry(p).and_modify(|s| s.assists += 1).or_insert(Stat«0,1»)`. -/
def add_assist_stat (stats : List (Player × Stat)) (p : Player) : List (Player × Stat) :=
  if stats.any (fun e => e.1 = p) then
    stats.map (fun e => if e.1 = p then (e.1, ⟨e.2.goals, e.2.assists + 1⟩) else e)
  else stats ++ [(p, ⟨0, 1⟩)]

/-- The `for_each` body of `count_stats` (`main.rs` 509–533): skip the goal
when its minute is 65 (`return` inside the closure), else tally a goal for a
highlighted scorer and an assist for every highlighted assisting player. -/
def tally_goal (highlights : List String) (stats : List (Player × Stat))
    (goal : Goal) : List (Player × Stat) :=
  if goal.minute = 65 then stats
  else
    let stats :=
      if highlights.contains goal.scorer.last_name then
        add_goal_stat stats goal.scorer
      else stats
    goal.assists.foldl
      (fun stats assist =>
        if highlights.contains assist.last_name then
          add_assist_stat stats assist
        else stats)
      stats

/-- `main.rs` 504–536, `count_stats`: fold the goals into the stats map with
`tally_goal`. -/
def count_stats (goals : List Goal) (highlights : List String)
    (stats : List (Player × Stat)) : List (Player × Stat) :=
  goals.foldl (tally_goal highlights) stats

/-- `main.rs` 538–550, `has_last_name_namesake`: scan the map's keys for one
that shares the player's last name and differs in team, or shares the team
but differs in first name. -/
def has_last_name_namesake (player : Player) (stats : List (Player × Stat)) : Bool :=
  stats.any fun other =>
    (other.1.last_name == player.last_name && other.1.team != player.team) ||
    (other.1.last_name == player.last_name && other.1.team == player.team &&
      other.1.first_name != player.first_name)

/-- The display name of one stats entry: `"{initial}. {last}"` when a
namesake forces disambiguation (`first_name.chars().next().unwrap()` is a
panic — `Except.error` — on an empty first name), else the bare last name. -/
def stats_display_name (player : Player) (stats : List (Player × Stat)) :
    Except String String :=
  if has_last_name_namesake player stats then
    match player.first_name.data with
    | [] => .error "called Option::unwrap() on a None value"
    | c :: _ => .ok (String.mk [c] ++ ". " ++ player.last_name)
  else .ok player.last_name

/-- `main.rs` 552–581, `craft_stats_message`: aggregate the goals, return
`none` when no highlighted player gained a point, else the `", "`-joined
`"Name G+A"` entries wrapped in parentheses. -/
def craft_stats_message (goals : List Goal) (highlights : List String) :
    Except String (Option String) :=
  let stats := count_stats goals highlights []
  if stats.isEmpty then .ok none
  else
    match map_except
        (fun e =>
          match stats_display_name e.1 stats with
          | .error err => .error err
          | .ok name =>
              .ok (name ++ " " ++ toString e.2.goals ++ "+" ++ toString e.2.assists))
        stats with
    | .error e => .error e
    | .ok messages => .ok (some ("(" ++ String.intercalate ", " messages ++ ")"))

/-! ## Test fixtures (concrete feed records used by witnesses) -/

/-- A team record with the given abbreviation and blank metadata. -/
def mkTeam (abbr : String) : TeamResponse :=
  { abbreviation := abbr, id := 0, location_name := "", short_name := "", team_name := "" }

/-- A first-period goal record (from the repository's overtime-game test). -/
def marner_goal : GoalResponse :=
  { period := "1", scorer := ⟨"Mitch Marner", some 1⟩, team := "TOR"
    assists := some [⟨"Mitchell Stephens", 1⟩, ⟨"Alexander Volkov", 1⟩]
    empty_net := none, min := some 4, sec := some 10, strength := none }

/-- An overtime goal record (from the repository's overtime-game test). -/
def crosby_ot_goal : GoalResponse :=
  { period := "OT", scorer := ⟨"Sidney Crosby", some 4⟩, team := "PIT"
    assists := some [], empty_net := none, min := some 3, sec := some 0, strength := none }

/-- An overtime goal scored at minute 5 of overtime. -/
def ot_min5_goal : GoalResponse :=
  { period := "OT", scorer := ⟨"Connor McDavid", some 1⟩, team := "EDM"
    assists := some [], empty_net := none, min := some 5, sec := some 0, strength := none }

/-- A goal record with the malformed period `"SP"` (from the repository's
`is_special` test data). -/
def sp_goal : GoalResponse :=
  { period := "SP", scorer := ⟨"X Y", none⟩, team := "CHI"
    assists := none, empty_net := none, min := some 3, sec := none, strength := none }

/-- The overtime game of the repository's tests: home TOR 1, away PIT 2,
Marner in the first period and Crosby in overtime. -/
def ot_game : GameResponse :=
  { status := ⟨"FINAL"⟩, start_time := "2021-01-23T19:00:00Z"
    goals := some [marner_goal, crosby_ot_goal]
    scores := [("PIT", 2), ("TOR", 1)]
    teams := ⟨mkTeam "PIT", mkTeam "TOR"⟩
    current_stats := ⟨none⟩ }

/-- A game record whose `scores` map lacks the home team's abbreviation
(`TOR` is the home side but only `PIT` has a score entry). -/
def missing_score_game : GameResponse :=
  { status := ⟨"LIVE"⟩, start_time := "2021-01-23T19:00:00Z"
    goals := none
    scores := [("PIT", 1)]
    teams := ⟨mkTeam "PIT", mkTeam "TOR"⟩
    current_stats := ⟨none⟩ }

/-- A game record containing the malformed-period goal `sp_goal`. -/
def sp_game : GameResponse :=
  { status := ⟨"LIVE"⟩, start_time := "t"
    goals := some [sp_goal]
    scores := [("CHI", 1), ("TOR", 0)]
    teams := ⟨mkTeam "TOR", mkTeam "CHI"⟩
    current_stats := ⟨none⟩ }

/-- A regulation goal by a highlighted scorer at minute 21 (from the
repository's shootout-stats test). -/
def barkov_reg_goal : Goal :=
  { scorer := ⟨"Alexander", "Barkov", "Florida"⟩, assists := [], minute := 21
    special := false, team := "Florida" }

/-- The same scorer's shootout goal, carrying the sentinel minute 65. -/
def barkov_so_goal : Goal :=
  { scorer := ⟨"Alexander", "Barkov", "Florida"⟩, assists := [], minute := 65
    special := false, team := "Florida" }

/-- Jack Hughes (New Jersey) scoring at minute 21 (disambiguation test). -/
def jack_hughes_goal : Goal :=
  { scorer := ⟨"Jack", "Hughes", "New Jersey"⟩, assists := [], minute := 21
    special := false, team := "New Jersey" }

/-- Quinn Hughes (Vancouver) scoring at minute 23 (disambiguation test). -/
def quinn_hughes_goal : Goal :=
  { scorer := ⟨"Quinn", "Hughes", "Vancouver"⟩, assists := [], minute := 23
    special := false, team := "Vancouver" }

/-- Quinn Hughes placed on New Jersey: same team and last name as Jack,
different first name (same-team disambiguation test). -/
def quinn_same_team_goal : Goal :=
  { scorer := ⟨"Quinn", "Hughes", "New Jersey"⟩, assists := [], minute := 23
    special := false, team := "New Jersey" }

/-- The `Goal` record `parse_game` builds from `marner_goal`. -/
def marner_parsed : Goal :=
  { scorer := ⟨"Mitch", "Marner", "TOR"⟩
    assists := [⟨"Mitchell", "Stephens", "TOR"⟩, ⟨"Alexander", "Volkov", "TOR"⟩]
    minute := 4, special := false, team := "TOR" }

/-- The `Goal` record `parse_game` builds from `crosby_ot_goal`. -/
def crosby_parsed : Goal :=
  { scorer := ⟨"Sidney", "Crosby", "PIT"⟩, assists := [], minute := 63
    special := true, team := "PIT" }

/-- The `Game` record `parse_game` yields for `ot_game`. -/
def ot_game_parsed : Game :=
  { home := "TOR", away := "PIT", score := "1-2"
    goals := [marner_parsed, crosby_parsed]
    status := "FINAL", special := "ot", playoff_series := none }

/-! ## Supporting lemmas -/

/-- Goals at the sentinel minute contribute nothing to `count_stats`:
folding over the unfiltered list equals folding over the list with the
minute-65 goals removed. -/
theorem count_stats_eq_filter (goals : List Goal) (highlights : List String)
    (stats : List (Player × Stat)) :
    count_stats goals highlights stats =
      count_stats (goals.filter (fun g => g.minute ≠ 65)) highlights stats := by
  induction goals generalizing stats with
  | nil => rfl
  | cons g gs ih =>
      rw [List.filter_cons]
      by_cases h : g.minute = 65
      · rw [if_neg (by simp [h])]
        rw [← ih stats]
        show List.foldl (tally_goal highlights) (tally_goal highlights stats g) gs =
          count_stats gs highlights stats
        rw [show tally_goal highlights stats g = stats from by simp [tally_goal, h]]
        rfl
      · rw [if_pos (by simp [h])]
        show List.foldl (tally_goal highlights) (tally_goal highlights stats g) gs =
          count_stats (g :: List.filter (fun g => decide (g.minute ≠ 65)) gs) highlights stats
        show _ = List.foldl (tally_goal highlights) (tally_goal highlights stats g)
          (List.filter _ gs)
        exact ih (tally_goal highlights stats g)

/-- A panicking element anywhere in the list aborts the whole
`map_except` collection. -/
theorem map_except_error_of_mem {f : α → Except ε β} {xs : List α} {x : α} {e : ε}
    (hmem : x ∈ xs) (hx : f x = .error e) : ∃ e', map_except f xs = .error e' := by
  induction xs with
  | nil => cases hmem
  | cons y ys ih =>
      rcases List.mem_cons.mp hmem with rfl | hmem'
      · exact ⟨e, by simp [map_except, hx]⟩
      · cases hy : f y with
        | error e₀ => exact ⟨e₀, by simp [map_except, hy]⟩
        | ok b =>
            obtain ⟨e', he'⟩ := ih hmem'
            exact ⟨e', by simp [map_except, hy, he']⟩

/-- A successful `map_except` collection preserves the list's length. -/
theorem map_except_ok_length {f : α → Except ε β} {xs : List α} {ys : List β}
    (h : map_except f xs = .ok ys) : ys.length = xs.length := by
  induction xs generalizing ys with
  | nil => simp [map_except] at h; simp [← h]
  | cons x xs ih =>
      simp only [map_except] at h
      cases hx : f x with
      | error e => simp [hx] at h
      | ok y =>
          rw [hx] at h
          cases hxs : map_except f xs with
          | error e => simp [hxs] at h
          | ok ys' =>
              rw [hxs] at h
              cases h
              simp [ih hxs]

/-- Inverting a successful `parse_game`: the produced game's `special` field
is the marker computed from the (defaulted) goal list, and its goal count
matches the feed's. -/
theorem parse_game_ok_inv {gj : GameResponse} {game : Game}
    (h : parse_game gj = .ok (some game)) :
    game.special = game_special_marker (gj.goals.getD []) ∧
    game.goals.length = (gj.goals.getD []).length := by
  simp only [parse_game] at h
  cases h1 : hashmap_index gj.scores gj.teams.home.abbreviation with
  | error e => rw [h1] at h; simp at h
  | ok hs =>
      rw [h1] at h
      cases h2 : hashmap_index gj.scores gj.teams.away.abbreviation with
      | error e => rw [h2] at h; simp at h
      | ok as_ =>
          rw [h2] at h
          cases h3 : map_except parse_goal (gj.goals.getD []) with
          | error e => rw [h3] at h; simp at h
          | ok goals =>
              rw [h3] at h
              simp only [Except.ok.injEq, Option.some.injEq] at h
              subst h
              exact ⟨rfl, map_except_ok_length h3⟩

/-- `split_spaces` never yields an empty field list. -/
theorem split_spaces_ne_nil (l : List Char) : split_spaces l ≠ [] := by
  cases l with
  | nil => simp [split_spaces]
  | cons c cs =>
      by_cases h : c = ' '
      · simp [split_spaces, h]
      · simp only [split_spaces, h, if_false]
        cases split_spaces cs <;> simp

/-- The first field of `split_spaces` is the text before the first space. -/
theorem split_spaces_headD (l : List Char) :
    (split_spaces l).headD [] = l.takeWhile (fun c => c ≠ ' ') := by
  induction l with
  | nil => rfl
  | cons c cs ih =>
      by_cases h : c = ' '
      · simp [split_spaces, List.takeWhile_cons, h]
      · simp only [split_spaces, h, if_false, List.takeWhile_cons, decide_not,
          decide_False, Bool.not_false, ite_true]
        cases hs : split_spaces cs with
        | nil => exact absurd hs (split_spaces_ne_nil cs)
        | cons p ps =>
            rw [hs] at ih
            simp at ih ⊢
            rw [ih]

/-- Space-joining the fields of `split_spaces` restores the original text. -/
theorem join_spaces_split_spaces (l : List Char) :
    join_spaces (split_spaces l) = l := by
  induction l with
  | nil => rfl
  | cons c cs ih =>
      by_cases h : c = ' '
      · subst h
        simp only [split_spaces, if_true]
        cases hs : split_spaces cs with
        | nil => exact absurd hs (split_spaces_ne_nil cs)
        | cons p ps =>
            rw [hs] at ih
            simpa [join_spaces] using ih
      · simp only [split_spaces, h, if_false]
        cases hs : split_spaces cs with
        | nil => exact absurd hs (split_spaces_ne_nil cs)
        | cons p ps =>
            rw [hs] at ih
            cases ps with
            | nil => simpa [join_spaces] using ih
            | cons q qs => simpa [join_spaces] using ih

/-- The space-joined tail of `split_spaces` is the text after the first
space. -/
theorem join_spaces_split_spaces_tail (l : List Char) :
    join_spaces ((split_spaces l).drop 1) =
      (l.dropWhile (fun c => c ≠ ' ')).drop 1 := by
  induction l with
  | nil => rfl
  | cons c cs ih =>
      by_cases h : c = ' '
      · subst h
        simp only [split_spaces, if_true, List.drop_one, List.tail_cons,
          List.dropWhile_cons]
        simp only [decide_not, decide_eq_true_eq]
        rw [if_neg (by simp)]
        simpa using join_spaces_split_spaces cs
      · simp only [split_spaces, h, if_false, List.dropWhile_cons]
        rw [if_pos (by simp [h])]
        cases hs : split_spaces cs with
        | nil => exact absurd hs (split_spaces_ne_nil cs)
        | cons p ps =>
            rw [hs] at ih
            simpa using ih

/-- `split_inclusive_nl` peels off a newline-free prefix together with its
terminating newline as one chunk. -/
theorem split_inclusive_nl_append (l rest : List Char) (h : '\n' ∉ l) :
    split_inclusive_nl (l ++ '\n' :: rest) =
      (l ++ ['\n']) :: split_inclusive_nl rest := by
  induction l with
  | nil => simp [split_inclusive_nl]
  | cons c cs ih =>
      have hc : c ≠ '\n' := fun hc => h (by simp [hc])
      have hcs : '\n' ∉ cs := fun hm => h (by simp [hm])
      show split_inclusive_nl (c :: (cs ++ '\n' :: rest)) = _
      simp only [split_inclusive_nl, hc, if_false]
      rw [ih hcs]
      simp

/-- A non-empty chunk without newlines splits to itself. -/
theorem split_inclusive_nl_no_nl (l : List Char) (h : '\n' ∉ l) (hne : l ≠ []) :
    split_inclusive_nl l = [l] := by
  induction l with
  | nil => exact absurd rfl hne
  | cons c cs ih =>
      have hc : c ≠ '\n' := fun hc => h (by simp [hc])
      have hcs : '\n' ∉ cs := fun hm => h (by simp [hm])
      simp only [split_inclusive_nl, hc, if_false]
      cases hcase : cs with
      | nil => simp [hcase, split_inclusive_nl]
      | cons d ds =>
          rw [← hcase, ih hcs (by simp [hcase])]

/-- Stripping the carriage return of a line that has none is the
identity. -/
theorem strip_cr_no_cr (l : List Char) (h : '\r' ∉ l) : strip_cr l = l := by
  unfold strip_cr
  cases hl : l.getLast? with
  | none => rfl
  | some c =>
      have : c ∈ l := List.mem_of_mem_getLast? (by rw [hl]; rfl)
      have hc : c ≠ '\r' := fun hc => h (hc ▸ this)
      simp [hc]

/-- Stripping the carriage return of a line that ends in one drops it. -/
theorem strip_cr_concat_cr (l : List Char) : strip_cr (l ++ ['\r']) = l := by
  unfold strip_cr
  rw [List.getLast?_concat]
  simp [List.dropLast_concat]

/-- Stripping a chunk that ends in a bare `'\n'` (no `'\r'` anywhere in the
line) yields the line. -/
theorem strip_newline_concat_nl (l : List Char) (h : '\r' ∉ l) :
    strip_newline (l ++ ['\n']) = l := by
  unfold strip_newline
  rw [List.getLast?_concat]
  simp only [if_pos rfl, List.dropLast_concat]
  exact strip_cr_no_cr l h

/-- Stripping a chunk that ends in `"\r\n"` removes both characters. -/
theorem strip_newline_crlf (l : List Char) :
    strip_newline (l ++ ['\r', '\n']) = l := by
  have h1 : l ++ ['\r', '\n'] = (l ++ ['\r']) ++ ['\n'] := by simp
  rw [h1]
  unfold strip_newline
  rw [List.getLast?_concat]
  simp only [if_pos rfl, List.dropLast_concat]
  exact strip_cr_concat_cr l

/-- A chunk that does not end in `'\n'` is returned unchanged. -/
theorem strip_newline_no_nl (l : List Char) (h : '\n' ∉ l) :
    strip_newline l = l := by
  unfold strip_newline
  cases hl : l.getLast? with
  | none => rfl
  | some c =>
      have : c ∈ l := List.mem_of_mem_getLast? (by rw [hl]; rfl)
      have hc : c ≠ '\n' := fun hc => h (hc ▸ this)
      simp [hc]

/-- Core round trip of `rust_lines`: joining newline-free lines with either
`"\r\n"` or `"\n"` and re-splitting yields the lines, up to dropped empty
lines. -/
theorem rust_lines_join (ls : List (List Char))
    (h : ∀ l ∈ ls, '\n' ∉ l ∧ '\r' ∉ l) :
    (rust_lines (join_with ['\r', '\n'] ls)).filter (fun l => l ≠ []) =
      ls.filter (fun l => l ≠ []) ∧
    (rust_lines (join_with ['\n'] ls)).filter (fun l => l ≠ []) =
      ls.filter (fun l => l ≠ []) := by
  induction ls with
  | nil => exact ⟨rfl, rfl⟩
  | cons l ls ih =>
      obtain ⟨hn, hr⟩ := h l (by simp)
      have htail : ∀ x ∈ ls, '\n' ∉ x ∧ '\r' ∉ x := fun x hx => h x (by simp [hx])
      cases ls with
      | nil =>
          by_cases hl : l = []
          · subst hl
            exact ⟨rfl, rfl⟩
          · have hsplit := split_inclusive_nl_no_nl l hn hl
            constructor <;>
              simp [join_with, rust_lines, hsplit, strip_newline_no_nl l hn,
                List.filter_cons, hl]
      | cons l₂ ls₂ =>
          obtain ⟨ih₁, ih₂⟩ := ih htail
          rw [show rust_lines (join_with ['\r', '\n'] (l₂ :: ls₂)) =
            (split_inclusive_nl (join_with ['\r', '\n'] (l₂ :: ls₂))).map
              strip_newline from rfl] at ih₁
          rw [show rust_lines (join_with ['\n'] (l₂ :: ls₂)) =
            (split_inclusive_nl (join_with ['\n'] (l₂ :: ls₂))).map
              strip_newline from rfl] at ih₂
          constructor
          · have hjoin : join_with ['\r', '\n'] (l :: l₂ :: ls₂) =
                (l ++ ['\r']) ++ '\n' :: join_with ['\r', '\n'] (l₂ :: ls₂) := by
              simp [join_with]
            have hnr : '\n' ∉ l ++ ['\r'] := by simp [hn]
            rw [hjoin, rust_lines, split_inclusive_nl_append _ _ hnr]
            have hsh : (l ++ ['\r']) ++ ['\n'] = l ++ ['\r', '\n'] := by simp
            rw [List.map_cons, hsh, strip_newline_crlf]
            rw [List.filter_cons, List.filter_cons]
            by_cases hl : l = []
            · rw [if_neg (by simp [hl]), if_neg (by simp [hl])]
              exact ih₁
            · rw [if_pos (by simp [hl]), if_pos (by simp [hl]), ih₁]
          · have hjoin : join_with ['\n'] (l :: l₂ :: ls₂) =
                l ++ '\n' :: join_with ['\n'] (l₂ :: ls₂) := by
              simp [join_with]
            rw [hjoin, rust_lines, split_inclusive_nl_append _ _ hn]
            rw [List.map_cons, strip_newline_concat_nl l hr]
            rw [List.filter_cons, List.filter_cons]
            by_cases hl : l = []
            · rw [if_neg (by simp [hl]), if_neg (by simp [hl])]
              exact ih₂
            · rw [if_pos (by simp [hl]), if_pos (by simp [hl]), ih₂]

/-- Filtering out empty strings after packing character lists equals packing
after filtering out empty lists. -/
theorem filter_map_mk (xs : List (List Char)) :
    ((xs.map fun l => String.mk l).filter fun s => s ≠ "") =
      (xs.filter fun l => l ≠ []).map fun l => String.mk l := by
  induction xs with
  | nil => rfl
  | cons x xs ih =>
      have hmk : (String.mk x = "") ↔ x = [] := by
        constructor
        · intro hx
          have := congrArg String.data hx
          simpa using this
        · intro hx; rw [hx]
      rw [List.map_cons, List.filter_cons, List.filter_cons]
      by_cases hx : x = []
      · rw [if_neg (by simp [hmk, hx]), if_neg (by simp [hx])]
        exact ih
      · rw [if_pos (by simp [hmk, hx]), if_pos (by simp [hx]), List.map_cons, ih]

/-- The game-level special marker can only be `""`, `"ot"` or `"so"`. -/
theorem game_special_marker_cases (goals : List GoalResponse) :
    game_special_marker goals = "" ∨ game_special_marker goals = "ot" ∨
    game_special_marker goals = "so" := by
  unfold game_special_marker
  cases goals.getLast? with
  | none => left; rfl
  | some lg => simp only; split_ifs <;> simp

/-- A goal whose period is neither numeric nor `"OT"`/`"SO"`, or whose `min`
is absent while its period is not `"SO"`, makes `parse_goal` panic. -/
theorem parse_goal_error_of_bad (goal : GoalResponse)
    (hbad : (parseU64 goal.period = none ∧ goal.period ≠ "OT" ∧ goal.period ≠ "SO") ∨
      (goal.min = none ∧ goal.period ≠ "SO")) :
    ∃ e, parse_goal goal = Except.error e := by
  rcases hbad with ⟨hparse, hot, hso⟩ | ⟨hmin, hso⟩
  · cases hmin : goal.min with
    | none =>
        exact ⟨"called Option::unwrap() on a None value",
          by simp [parse_goal, goal_minute, hso, hmin]⟩
    | some m =>
        exact ⟨"invalid digit found in string",
          by simp [parse_goal, goal_minute, hso, hmin, format_minute, hot, hparse]⟩
  · exact ⟨"called Option::unwrap() on a None value",
      by simp [parse_goal, goal_minute, hso, hmin]⟩

/-! ## The claims -/

/-- C2: the derived minute of a goal is the sentinel 65 for period `"SO"`,
`60 + min` for period `"OT"`, and `20 * (P - 1) + min` when the period
parses as an integer `P ≥ 1`; in particular `minute(3,"1") = 3`,
`minute(13,"2") = 33`, `minute(5,"3") = 45`, `minute(12,"4") = 72`,
`minute(4,"OT") = 64`, `minute(0,"OT") = 60` and `minute(0,"1") = 0`. -/
theorem c2_minute_derivation :
    (∀ goal : GoalResponse, goal.period = "SO" → goal_minute goal = .ok 65) ∧
    (∀ (goal : GoalResponse) (m : Nat), goal.period = "OT" → goal.min = some m →
      goal_minute goal = .ok (60 + m)) ∧
    (∀ (goal : GoalResponse) (m p : Nat), goal.min = some m →
      parseU64 goal.period = some p → 1 ≤ p →
      goal_minute goal = .ok (20 * (p - 1) + m)) ∧
    format_minute 3 "1" = .ok 3 ∧ format_minute 13 "2" = .ok 33 ∧
    format_minute 5 "3" = .ok 45 ∧ format_minute 12 "4" = .ok 72 ∧
    format_minute 4 "OT" = .ok 64 ∧ format_minute 0 "OT" = .ok 60 ∧
    format_minute 0 "1" = .ok 0 := by
  refine ⟨?_, ?_, ?_, by rfl, by rfl, by rfl, by rfl, by rfl, by rfl, by rfl⟩
  · intro goal h
    simp [goal_minute, h, SHOOTOUT_MINUTE]
  · intro goal m hper hmin
    simp [goal_minute, hper, hmin, format_minute]
  · intro goal m p hmin hparse hp
    have hso : goal.period ≠ "SO" := by
      intro h; rw [h] at hparse; simp [parseU64, digits_to_nat] at hparse
    have hot : goal.period ≠ "OT" := by
      intro h; rw [h] at hparse; simp [parseU64, digits_to_nat] at hparse
    simp [goal_minute, hso, hmin, format_minute, hot, hparse]

/-- C3 counterexample: an overtime goal at `min = 5` (within the claim's
`0 ≤ min ≤ 19` range) derives minute `60 + 5 = 65`, equal to the shootout
sentinel, so the sentinel does not uniquely identify shootout goals. -/
theorem c3_ot_goal_reaches_sentinel :
    format_minute 5 "OT" = .ok 65 ∧ goal_minute ot_min5_goal = .ok 65 ∧
    (0 ≤ 5 ∧ 5 ≤ 19) := by
  refine ⟨by rfl, by rfl, by decide⟩

/-- C3 amended: for an overtime goal with `0 ≤ min ≤ 19` the derived minute
is `60 + min`, which lies in `[60, 79]` and equals the shootout sentinel 65
exactly when `min = 5` — so minute 65 marks either a shootout goal or an
overtime goal scored at overtime minute 5, and does not uniquely identify
shootout goals. -/
theorem c3_ot_minute_range (min : Nat) (h : min ≤ 19) :
    format_minute min "OT" = .ok (60 + min) ∧ 60 ≤ 60 + min ∧ 60 + min ≤ 79 ∧
    (60 + min = 65 ↔ min = 5) := by
  refine ⟨by simp [format_minute], by omega, by omega, by omega⟩

/-- C3 witness: the amended statement at the concrete overtime minute 0. -/
theorem c3_ot_minute_range_witness :
    format_minute 0 "OT" = .ok (60 + 0) ∧ 60 ≤ 60 + 0 ∧ 60 + 0 ≤ 79 ∧
    (60 + 0 = 65 ↔ 0 = 5) :=
  c3_ot_minute_range 0 (by decide)

/-- C4: the stats aggregation skips every goal whose minute is the shootout
sentinel 65 — aggregating any goal list equals aggregating the list with the
minute-65 goals removed — and a highlighted scorer with one goal at minute
21 and one at minute 65 yields the stats line `"(Barkov 1+0)"`. -/
theorem c4_shootout_goals_excluded :
    (∀ (goals : List Goal) (highlights : List String) (stats : List (Player × Stat)),
      count_stats goals highlights stats =
        count_stats (goals.filter (fun g => g.minute ≠ 65)) highlights stats) ∧
    craft_stats_message [barkov_reg_goal, barkov_so_goal] ["Barkov"] =
      .ok (some "(Barkov 1+0)") := by
  exact ⟨count_stats_eq_filter, by rfl⟩

/-- C1: evaluation of the code at the claim's failing input.  `parse_game`
never yields an absent result (`Option::None`): a game whose `scores` map
lacks one side's abbreviation instead panics via the `HashMap` index
(`Except.error` here), and that panic aborts the whole batch rather than
leaving the remaining games to render. -/
theorem c1_missing_score_key_is_fatal :
    (∀ gj : GameResponse, parse_game gj ≠ .ok none) ∧
    parse_game missing_score_game = .error "no entry found for key" ∧
    parse_games [missing_score_game, ot_game] = .error "no entry found for key" := by
  refine ⟨?_, by rfl, by rfl⟩
  intro gj h
  simp only [parse_game] at h
  cases h1 : hashmap_index gj.scores gj.teams.home.abbreviation with
  | error e => rw [h1] at h; simp at h
  | ok hs =>
      rw [h1] at h
      cases h2 : hashmap_index gj.scores gj.teams.away.abbreviation with
      | error e => rw [h2] at h; simp at h
      | ok as_ =>
          rw [h2] at h
          cases h3 : map_except parse_goal (gj.goals.getD []) with
          | error e => rw [h3] at h; simp at h
          | ok goals => rw [h3] at h; simp at h

/-- C5: a parsed game's special marker is the one computed from the last
goal's period by exact string match — `"1"`, `"2"`, `"3"` give `""`, `"OT"`
gives `"ot"`, `"SO"` gives `"so"`, any other string gives `"ot"` — and an
empty (or absent) goal list gives `""`. -/
theorem c5_special_marker :
    (∀ (gj : GameResponse) (game : Game), parse_game gj = .ok (some game) →
      game.special = game_special_marker (gj.goals.getD [])) ∧
    game_special_marker [] = "" ∧
    (∀ (goals : List GoalResponse) (lg : GoalResponse), goals.getLast? = some lg →
      ((lg.period = "1" ∨ lg.period = "2" ∨ lg.period = "3") →
        game_special_marker goals = "") ∧
      (lg.period = "OT" → game_special_marker goals = "ot") ∧
      (lg.period = "SO" → game_special_marker goals = "so") ∧
      (lg.period ≠ "1" → lg.period ≠ "2" → lg.period ≠ "3" → lg.period ≠ "OT" →
        lg.period ≠ "SO" → game_special_marker goals = "ot")) := by
  refine ⟨fun gj game h => (parse_game_ok_inv h).1, rfl, ?_⟩
  intro goals lg hlast
  refine ⟨?_, ?_, ?_, ?_⟩
  · rintro (h1 | h1 | h1) <;> simp [game_special_marker, hlast, h1]
  · intro h1; simp [game_special_marker, hlast, h1]
  · intro h1; simp [game_special_marker, hlast, h1]
  · intro h1 h2 h3 h4 h5
    simp [game_special_marker, hlast, h1, h2, h3, h4, h5]

/-- C6: `has_last_name_namesake` holds exactly when some other entry of the
aggregate shares the player's last name (a different key — so a different
team, or the same team with a different first name), and two highlighted
scorers both named Hughes each render with a first initial, whether on
different teams or the same team. -/
theorem c6_namesake_disambiguation :
    (∀ (p : Player) (stats : List (Player × Stat)),
      has_last_name_namesake p stats = true ↔
        ∃ e ∈ stats, e.1.last_name = p.last_name ∧ e.1 ≠ p) ∧
    craft_stats_message [jack_hughes_goal, quinn_hughes_goal] ["Hughes"] =
      .ok (some "(J. Hughes 1+0, Q. Hughes 1+0)") ∧
    craft_stats_message [jack_hughes_goal, quinn_same_team_goal] ["Hughes"] =
      .ok (some "(J. Hughes 1+0, Q. Hughes 1+0)") := by
  refine ⟨?_, by rfl, by rfl⟩
  intro p stats
  unfold has_last_name_namesake
  rw [List.any_eq_true]
  constructor
  · rintro ⟨e, he, hcond⟩
    simp only [Bool.or_eq_true, Bool.and_eq_true, beq_iff_eq, bne_iff_ne] at hcond
    rcases hcond with ⟨hl, ht⟩ | ⟨⟨hl, _⟩, hf⟩
    · exact ⟨e, he, hl, fun hep => ht (by rw [hep])⟩
    · exact ⟨e, he, hl, fun hep => hf (by rw [hep])⟩
  · rintro ⟨e, he, hl, hne⟩
    refine ⟨e, he, ?_⟩
    by_cases ht : e.1.team = p.team
    · have hf : e.1.first_name ≠ p.first_name := by
        intro hf
        apply hne
        obtain ⟨q, st⟩ := e
        obtain ⟨f, l, t⟩ := q
        obtain ⟨pf, pl, pt⟩ := p
        simp only at hl ht hf
        simp [hl, ht, hf]
      simp [hl, ht, hf]
    · simp [hl, ht]

/-- C7: a goal whose period string is neither numeric nor `"OT"`/`"SO"`, or
whose `min` is absent while its period is not `"SO"`, makes the transform of
its game panic — `parse_game` yields an error, never a silent default. -/
theorem c7_feed_contract_panics (gj : GameResponse) (goal : GoalResponse)
    (hmem : goal ∈ gj.goals.getD [])
    (hbad : (parseU64 goal.period = none ∧ goal.period ≠ "OT" ∧ goal.period ≠ "SO") ∨
      (goal.min = none ∧ goal.period ≠ "SO")) :
    ∃ e, parse_game gj = Except.error e := by
  cases h1 : hashmap_index gj.scores gj.teams.home.abbreviation with
  | error e => exact ⟨e, by simp [parse_game, h1]⟩
  | ok hs =>
      cases h2 : hashmap_index gj.scores gj.teams.away.abbreviation with
      | error e => exact ⟨e, by simp [parse_game, h1, h2]⟩
      | ok as_ =>
          obtain ⟨e0, he0⟩ := parse_goal_error_of_bad goal hbad
          obtain ⟨e1, he1⟩ := map_except_error_of_mem hmem he0
          exact ⟨e1, by simp [parse_game, h1, h2, he1]⟩

/-- C7 witness: the goal with period `"SP"` (the repository's own
wrong-data test vector) aborts its game's transform. -/
theorem c7_feed_contract_panics_witness :
    ∃ e, parse_game sp_game = Except.error e :=
  c7_feed_contract_panics sp_game sp_goal (by decide)
    (Or.inl ⟨by decide, by decide, by decide⟩)

/-- C8: `extract_player` splits on spaces so that the first name is the text
before the first space and the last name is the entire remainder —
`"Olli Maatta"` gives last name `"Maatta"`, `"James van Riemsdyk"` keeps the
multi-token surname `"van Riemsdyk"` — and a single-token name gives an
empty last name. -/
theorem c8_extract_player_name_split :
    (∀ name team : String,
      (extract_player name team).first_name =
        String.mk (name.data.takeWhile (fun c => c ≠ ' ')) ∧
      (extract_player name team).last_name =
        String.mk ((name.data.dropWhile (fun c => c ≠ ' ')).drop 1) ∧
      (extract_player name team).team = team) ∧
    extract_player "Olli Maatta" "Chicago" = ⟨"Olli", "Maatta", "Chicago"⟩ ∧
    extract_player "James van Riemsdyk" "Philadelphia" =
      ⟨"James", "van Riemsdyk", "Philadelphia"⟩ ∧
    (∀ name team : String, (∀ c ∈ name.data, c ≠ ' ') →
      (extract_player name team).last_name = "") := by
  have hgen : ∀ name team : String,
      (extract_player name team).first_name =
        String.mk (name.data.takeWhile (fun c => c ≠ ' ')) ∧
      (extract_player name team).last_name =
        String.mk ((name.data.dropWhile (fun c => c ≠ ' ')).drop 1) ∧
      (extract_player name team).team = team := by
    intro name team
    refine ⟨?_, ?_, rfl⟩
    · show String.mk ((split_spaces name.data).headD []) = _
      rw [split_spaces_headD]
    · show String.mk (join_spaces ((split_spaces name.data).drop 1)) = _
      rw [join_spaces_split_spaces_tail]
  refine ⟨hgen, by rfl, by rfl, ?_⟩
  intro name team h
  rw [(hgen name team).2.1]
  rw [show name.data.dropWhile (fun c => c ≠ ' ') = [] from
    List.dropWhile_eq_nil_iff.mpr (by simpa using h)]
  rfl

/-- C9 counterexample: a config line with leading whitespace is returned
verbatim — the token `" Crosby"` keeps its leading space, so the parser does
not yield trimmed tokens. -/
theorem c9_token_keeps_whitespace :
    parse_highlight_config " Crosby" = [" Crosby"] ∧
    " Crosby".data.headD 'x' = ' ' ∧ " Crosby" ≠ "Crosby" := by
  exact ⟨by rfl, by rfl, by decide⟩

/-- C9 amended: `parse_highlight_config` drops empty lines and yields the
remaining lines in file order; CRLF and LF line endings parse identically
(for newline-free lines, joining with either separator parses to the same
token list); every token is a non-empty string — but tokens are NOT trimmed:
whitespace other than the line terminator is preserved verbatim. -/
theorem c9_highlight_lines :
    (∀ config : String, ∀ t ∈ parse_highlight_config config, t ≠ "") ∧
    (∀ ls : List (List Char), (∀ l ∈ ls, '\n' ∉ l ∧ '\r' ∉ l) →
      parse_highlight_config (String.mk (join_with ['\r', '\n'] ls)) =
        ((ls.filter fun l => l ≠ []).map fun l => String.mk l) ∧
      parse_highlight_config (String.mk (join_with ['\n'] ls)) =
        ((ls.filter fun l => l ≠ []).map fun l => String.mk l)) := by
  constructor
  · intro config t ht
    have := List.of_mem_filter ht
    simpa using this
  · intro ls h
    obtain ⟨h₁, h₂⟩ := rust_lines_join ls h
    constructor
    · show ((rust_lines (String.mk (join_with ['\r', '\n'] ls)).data).map
          (fun l => String.mk l)).filter (fun s => s ≠ "") = _
      rw [show (String.mk (join_with ['\r', '\n'] ls)).data =
        join_with ['\r', '\n'] ls from rfl]
      rw [filter_map_mk, h₁]
    · show ((rust_lines (String.mk (join_with ['\n'] ls)).data).map
          (fun l => String.mk l)).filter (fun s => s ≠ "") = _
      rw [show (String.mk (join_with ['\n'] ls)).data =
        join_with ['\n'] ls from rfl]
      rw [filter_map_mk, h₂]

/-- C10: every game produced by `parse_game` has a special marker among
`""`, `"ot"`, `"so"`; the marker is non-empty only when the goal list is
non-empty, and in particular a `"so"` game has a retrievable last goal. -/
theorem c10_parsed_game_invariants (gj : GameResponse) (game : Game)
    (h : parse_game gj = .ok (some game)) :
    (game.special = "" ∨ game.special = "ot" ∨ game.special = "so") ∧
    (game.special ≠ "" → game.goals ≠ []) ∧
    (game.special = "so" → game.goals.getLast?.isSome) := by
  obtain ⟨hspecial, hlen⟩ := parse_game_ok_inv h
  have hne : game.special ≠ "" → game.goals ≠ [] := by
    intro hs hgoals
    rw [hgoals] at hlen
    cases hlast : (gj.goals.getD []).getLast? with
    | none =>
        apply hs
        rw [hspecial]
        simp [game_special_marker, hlast]
    | some lg =>
        have : gj.goals.getD [] ≠ [] := by
          intro hnil; rw [hnil] at hlast; simp at hlast
        have : (gj.goals.getD []).length ≠ 0 := fun h0 => this (List.length_eq_zero.mp h0)
        simp at hlen
        exact this hlen.symm
  refine ⟨?_, hne, ?_⟩
  · rw [hspecial]
    exact game_special_marker_cases _
  · intro hso
    have := hne (by rw [hso]; decide)
    cases hgoals : game.goals with
    | nil => exact absurd hgoals this
    | cons a l => simp

/-- C10 witness: the invariants at the repository's overtime-game fixture. -/
theorem c10_parsed_game_invariants_witness :
    (ot_game_parsed.special = "" ∨ ot_game_parsed.special = "ot" ∨
      ot_game_parsed.special = "so") ∧
    (ot_game_parsed.special ≠ "" → ot_game_parsed.goals ≠ []) ∧
    (ot_game_parsed.special = "so" → ot_game_parsed.goals.getLast?.isSome) :=
  c10_parsed_game_invariants ot_game ot_game_parsed (by rfl)

end NHL235
